import Mathlib

/-!
# Verification of `fatiando/potential/synthetic.py`

A shallow embedding of the module `fatiando.potential.synthetic`, which
creates synthetic gravity data from prism and sphere models, together with
proofs of the specified properties of its two operations `from_prisms` and
`from_spheres`.

Modelling conventions:

* Python floats are modelled as exact rationals (`ℚ`).
* The external analytic formula libraries `fatiando.grav.prism` and
  `fatiando.grav.sphere` are out of scope for the module; they are modelled
  as function parameters (`F` for the prism formulas, `S` for the sphere
  formulas), keyed by the field component exactly as the `fields`
  dictionaries in the source key them by name.
* `numpy.random.uniform(a, b, n)` is modelled as a caller-supplied sampler
  `uniform : ℚ → ℚ → ℕ → List ℚ`; properties about random grids take the
  length and range behaviour of the sampler as hypotheses.
* Failures (Python `assert`, `ZeroDivisionError`, numpy `ValueError` on a
  broadcast mismatch, `IndexError`) are modelled by `Except Err`; an
  aborted call produces no data, so in particular it leaves the
  caller-supplied grid of `from_spheres` untouched.
* The in-place mutation `grid[value] = data` performed by `from_spheres`
  is modelled by returning the updated dictionary in the `.ok` case.
-/

attribute [local semireducible] Rat.add Rat.sub Rat.mul Rat.inv Rat.ofScientific

deriving instance DecidableEq for Except

namespace Fatiando

/-- The seven gravity field component names accepted by the module. -/
inductive Field where
  | gz | gxx | gxy | gxz | gyy | gyz | gzz
  deriving DecidableEq

/-- Keys of the `fields` dictionary of `from_prisms` (synthetic.py lines
100-106): all seven components. -/
def prismFields : List Field := [.gz, .gxx, .gxy, .gxz, .gyy, .gyz, .gzz]

/-- Keys of the `fields` dictionary of `from_spheres` (synthetic.py lines
219-222): only `gz`, `gxx`, `gyy`, `gzz`. -/
def sphereFields : List Field := [.gz, .gxx, .gyy, .gzz]

/-- A rectangular prism source body: the dictionary fields read by
`from_prisms` (`value`, `x1`, `x2`, `y1`, `y2`, `z1`, `z2`). -/
structure Prism where
  value : ℚ
  x1 : ℚ
  x2 : ℚ
  y1 : ℚ
  y2 : ℚ
  z1 : ℚ
  z2 : ℚ
  deriving DecidableEq

/-- A sphere source body: the dictionary fields read by `from_spheres`
(`density`, `radius`, `xc`, `yc`, `zc`). -/
structure Sphere where
  density : ℚ
  radius : ℚ
  xc : ℚ
  yc : ℚ
  zc : ℚ
  deriving DecidableEq

/-- Runtime failures of the module.  `invalidArgument` models a failed
`assert` (the InvalidArgument taxonomy of the spec); the remaining
constructors model exceptions that escape that taxonomy:
`zeroDivisionError` for the division by `nx - 1` at `nx = 1` and for a
zero-step `numpy.arange`, `valueError` for a numpy broadcast mismatch of
the `height` array, `indexError` for writing past the end of the
pre-allocated `value` array. -/
inductive Err where
  | invalidArgument (msg : String)
  | zeroDivisionError
  | valueError
  | indexError
  deriving DecidableEq

/-- The `height` argument of `from_prisms`: a scalar for constant height
or a 1D array with the height at each x,y pair. -/
inductive HeightArg where
  | scalar (h : ℚ)
  | perPoint (hs : List ℚ)
  deriving DecidableEq

/-- The data dictionary returned by `from_prisms`: keys `x`, `y`, `z`,
`value`, `error`, `grid`, and (only on a regular grid) `nx`, `ny`. -/
structure PrismData where
  x : List ℚ
  y : List ℚ
  z : List ℚ
  value : List ℚ
  error : List ℚ
  grid : Bool
  nx : Option ℕ
  ny : Option ℕ
  deriving DecidableEq

/-- A grid dictionary as consumed by `from_spheres`: string keys mapping
to coordinate/value arrays. -/
abbrev Grid := List (String × List ℚ)

/-- Python dictionary assignment `g[k] = v`: replace the binding of `k`
if present, otherwise append it. -/
def dset (g : Grid) (k : String) (v : List ℚ) : Grid :=
  match g with
  | [] => [(k, v)]
  | (k2, v2) :: t => if k2 = k then (k, v) :: t else (k2, v2) :: dset t k v

/-- Computable ceiling on `ℚ` (used to model the length of a
`numpy.arange` result). -/
def ceilQ (q : ℚ) : ℤ := -(Rat.floor (-q))

/-- `numpy.arange(start, stop, step)` over exact rationals: the values
`start + i * step` for `0 ≤ i < ⌈(stop - start) / step⌉`.  The caller must
rule out `step = 0` (numpy raises on a zero step). -/
def arangeQ (start stop step : ℚ) : List ℚ :=
  (List.range (Int.toNat (ceilQ ((stop - start) / step)))).map
    (fun i : ℕ => start + (i : ℚ) * step)

/-- The `z` array of `from_prisms` (synthetic.py line 110):
`-height * numpy.ones(nx * ny)` with numpy broadcast semantics.  A scalar
height fills all `n` slots; an array height of matching length is negated
elementwise; a length-1 array broadcasts; `n = 1` broadcasts the other
way; any other shape combination raises a `ValueError`. -/
def zFromHeight (height : HeightArg) (n : ℕ) : Except Err (List ℚ) :=
  match height with
  | .scalar h => .ok (List.replicate n (-h))
  | .perPoint hs =>
    if hs.length = n then .ok (hs.map (fun t => -t))
    else if hs.length = 1 then .ok (List.replicate n (-(hs.headD 0)))
    else if n = 1 then .ok (hs.map (fun t => -t))
    else .error .valueError

/-- The regular-grid axis ranges of `from_prisms` (synthetic.py lines
119-138): `dx = (x2 - x1)/(nx - 1)` and `x_range = arange(x1, x2, dx)`
(division by zero at `nx = 1`, and a zero step raises inside `arange`);
`y_range` likewise when `ny > 1` and the single value `[y1]` otherwise;
finally either range gets its endpoint appended when `arange` stopped
short of the requested count. -/
def regularRanges (x1 x2 y1 y2 : ℚ) (nx ny : ℕ) : Except Err (List ℚ × List ℚ) :=
  if (nx : ℚ) - 1 = 0 then .error .zeroDivisionError
  else
    let dx := (x2 - x1) / ((nx : ℚ) - 1)
    if dx = 0 then .error .zeroDivisionError
    else
      let xr0 := arangeQ x1 x2 dx
      let xr := if xr0.length < nx then xr0 ++ [x2] else xr0
      if 1 < ny then
        let dy := (y2 - y1) / ((ny : ℚ) - 1)
        if dy = 0 then .error .zeroDivisionError
        else
          let yr0 := arangeQ y1 y2 dy
          .ok (xr, if yr0.length < ny then yr0 ++ [y2] else yr0)
      else
        let yr0 : List ℚ := [y1]
        .ok (xr, if yr0.length < ny then yr0 ++ [y2] else yr0)

/-- The accumulated prism field value at one observation point (synthetic.py
lines 183-189): starting from the zero initialisation, add the contribution of every prism in list order. -/
def prismPointValue (F : Field → Prism → ℚ → ℚ → ℚ → ℚ) (field : Field)
    (prisms : List Prism) (x y z : ℚ) : ℚ :=
  prisms.foldl (fun acc p => acc + F field p x y z) 0

/-- The computed entries of the `value` array of `from_prisms`: the loop
at synthetic.py line 179 enumerates `zip(data[x], data[y], data[z])`
and accumulates every prism at each of those points. -/
def prismValues (F : Field → Prism → ℚ → ℚ → ℚ → ℚ) (field : Field)
    (prisms : List Prism) (xs ys zs : List ℚ) : List ℚ :=
  (xs.zip (ys.zip zs)).map (fun p => prismPointValue F field prisms p.1 p.2.1 p.2.2)

/-- The observation points of `from_prisms` together with the grid
metadata (`data[grid]`, `data[nx]`, `data[ny]`): the regular branch
(synthetic.py lines 115-155) builds the row-major cartesian product of
the two axis ranges (outer loop over `y_range`, inner loop over
`x_range`); the random branch (lines 157-171) draws `nx * ny` samples in
x and, only when `ny > 1`, in y. -/
def gridPoints (uniform : ℚ → ℚ → ℕ → List ℚ) (x1 x2 y1 y2 : ℚ) (nx ny : ℕ)
    (grid : String) : Except Err (List ℚ × List ℚ × Bool × Option ℕ × Option ℕ) :=
  if grid = "regular" then
    match regularRanges x1 x2 y1 y2 nx ny with
    | .error e => .error e
    | .ok (xr, yr) =>
      .ok ((yr.map (fun _ => xr)).flatten,
           (yr.map (fun yv => xr.map (fun _ => yv))).flatten,
           true, some nx, some ny)
  else
    .ok (uniform x1 x2 (nx * ny),
         (if 1 < ny then uniform y1 y2 (nx * ny) else [y1]),
         false, none, none)

/-- `from_prisms` (synthetic.py lines 49-193).  `F` stands for the prism
formula library `fatiando.grav.prism`, `uniform` for
`numpy.random.uniform`.  Checks the grid mode and the field name, builds
the `z` array, builds the observation points (regular lattice or random
scatter), then fills the pre-allocated `value` array of length `nx * ny`
by the double loop over points and prisms. -/
def from_prisms (F : Field → Prism → ℚ → ℚ → ℚ → ℚ)
    (uniform : ℚ → ℚ → ℕ → List ℚ) (prisms : List Prism)
    (x1 x2 y1 y2 : ℚ) (nx ny : ℕ) (height : HeightArg)
    (field : Field) (grid : String) : Except Err PrismData :=
  if ¬ (grid = "regular" ∨ grid = "random") then
    .error (.invalidArgument "Invalid grid type")
  else if field ∉ prismFields then
    .error (.invalidArgument "Invalid gravity field")
  else
    match zFromHeight height (nx * ny) with
    | .error e => .error e
    | .ok zs =>
      match gridPoints uniform x1 x2 y1 y2 nx ny grid with
      | .error e => .error e
      | .ok (xs, ys, gflag, onx, ony) =>
        if nx * ny < (xs.zip (ys.zip zs)).length then .error .indexError
        else
          .ok ⟨xs, ys, zs,
               prismValues F field prisms xs ys zs
                 ++ List.replicate (nx * ny - (xs.zip (ys.zip zs)).length) 0,
               List.replicate (nx * ny) 0,
               gflag, onx, ony⟩

/-- The accumulated sphere field value at one observation point (synthetic.py
lines 246-250). -/
def spherePointValue (S : Field → Sphere → ℚ → ℚ → ℚ → ℚ) (field : Field)
    (spheres : List Sphere) (x y z : ℚ) : ℚ :=
  spheres.foldl (fun acc s => acc + S field s x y z) 0

/-- The `data` array of `from_spheres`: `numpy.zeros_like(grid[x])`,
with the entries enumerated by `zip(grid[x], grid[y], grid[z])`
overwritten by the accumulated sums (synthetic.py lines 240-250). -/
def sphereValues (S : Field → Sphere → ℚ → ℚ → ℚ → ℚ) (field : Field)
    (spheres : List Sphere) (xs ys zs : List ℚ) : List ℚ :=
  ((xs.zip (ys.zip zs)).map (fun p => spherePointValue S field spheres p.1 p.2.1 p.2.2))
    ++ List.replicate (xs.length - (xs.zip (ys.zip zs)).length) 0

/-- `from_spheres` (synthetic.py lines 196-252).  `S` stands for the
sphere formula library `fatiando.grav.sphere`.  Validates the field name
against the four sphere formulas, then the presence of the `x`, `y`, `z`
keys, then computes the per-point sums and stores them under the `value`
value key of the grid of the caller (the in-place mutation is modelled by the
returned dictionary). -/
def from_spheres (S : Field → Sphere → ℚ → ℚ → ℚ → ℚ) (spheres : List Sphere)
    (grid : Grid) (field : Field) : Except Err Grid :=
  if field ∉ sphereFields then .error (.invalidArgument "Invalid gravity field")
  else
    match grid.lookup "x" with
    | none => .error (.invalidArgument "Missing x key")
    | some xs =>
      match grid.lookup "y" with
      | none => .error (.invalidArgument "Missing y key")
      | some ys =>
        match grid.lookup "z" with
        | none => .error (.invalidArgument "Missing z key")
        | some zs => .ok (dset grid "value" (sphereValues S field spheres xs ys zs))

/-! ## Basic lemmas about the embedding -/

theorem mem_prismFields (f : Field) : f ∈ prismFields := by
  cases f <;> simp [prismFields]

theorem ceilQ_eq (q : ℚ) : ceilQ q = ⌈q⌉ := by
  have h : (-q).floor = ⌊-q⌋ := (Rat.floor_def' _).trans Rat.floor_def.symm
  rw [ceilQ, h, Int.floor_neg, neg_neg]

/-- `arange(a, b, step)` with the exact step `(b - a)/m` produces exactly
`m` values `a + i * step`. -/
theorem arangeQ_div (a b : ℚ) (m : ℕ) (hm : 0 < m) (hab : b - a ≠ 0) :
    arangeQ a b ((b - a) / (m : ℚ)) =
      (List.range m).map (fun i : ℕ => a + (i : ℚ) * ((b - a) / (m : ℚ))) := by
  have hm0 : ((m : ℚ)) ≠ 0 := Nat.cast_ne_zero.mpr (Nat.pos_iff_ne_zero.mp hm)
  have hq : (b - a) / ((b - a) / (m : ℚ)) = (m : ℚ) := by field_simp
  unfold arangeQ
  rw [hq, ceilQ_eq, Int.ceil_natCast, Int.toNat_ofNat]

/-- Successful `z` arrays have one entry per requested data point (except
in the degenerate reversed-broadcast case `n = 1`). -/
theorem zFromHeight_length {height : HeightArg} {n : ℕ} {zs : List ℚ}
    (h : zFromHeight height n = .ok zs) (hn : n ≠ 1) : zs.length = n := by
  cases height with
  | scalar hq =>
    simp only [zFromHeight] at h
    cases h
    simp
  | perPoint hs =>
    simp only [zFromHeight] at h
    by_cases h1 : hs.length = n
    · rw [if_pos h1] at h
      cases h
      simp [h1]
    · rw [if_neg h1] at h
      by_cases h2 : hs.length = 1
      · rw [if_pos h2] at h
        cases h
        simp
      · rw [if_neg h2] at h
        by_cases h3 : n = 1
        · exact absurd h3 hn
        · rw [if_neg h3] at h
          cases h

/-- One axis of a regular grid: `arange` with step `(b - a)/(n - 1)`
followed by the endpoint append yields exactly `n` values running from
`a` to `b` inclusive. -/
theorem axis_spec {a b : ℚ} {n : ℕ} (hn : 2 ≤ n) (hab : b - a ≠ 0) {xr : List ℚ}
    (hxr : xr = (if (arangeQ a b ((b - a) / ((n : ℚ) - 1))).length < n
                 then arangeQ a b ((b - a) / ((n : ℚ) - 1)) ++ [b]
                 else arangeQ a b ((b - a) / ((n : ℚ) - 1)))) :
    xr.length = n ∧ xr.head? = some a ∧ xr.getLast? = some b := by
  have hcast : ((n : ℚ) - 1) = ((n - 1 : ℕ) : ℚ) := by
    rw [Nat.cast_sub (show 1 ≤ n by omega), Nat.cast_one]
  rw [hcast, arangeQ_div a b (n - 1) (by omega) hab] at hxr
  obtain ⟨m, hm⟩ : ∃ m, n - 1 = m + 1 := ⟨n - 2, by omega⟩
  rw [hm, List.range_succ_eq_map, List.map_cons] at hxr
  rw [if_pos (by simp; omega)] at hxr
  subst hxr
  refine ⟨by simp; omega, by simp, List.getLast?_concat _⟩

/-- Shape of a successful `regularRanges` call with at least two points
requested along each axis. -/
theorem regularRanges_ok {x1 x2 y1 y2 : ℚ} {nx ny : ℕ} {xr yr : List ℚ}
    (hnx : 2 ≤ nx) (hny : 2 ≤ ny)
    (h : regularRanges x1 x2 y1 y2 nx ny = .ok (xr, yr)) :
    xr.length = nx ∧ xr.head? = some x1 ∧ xr.getLast? = some x2 ∧
    yr.length = ny ∧ yr.head? = some y1 ∧ yr.getLast? = some y2 := by
  simp only [regularRanges] at h
  rw [if_neg (show ¬((nx : ℚ) - 1 = 0) by
        rw [sub_eq_zero]
        exact_mod_cast (show ¬ nx = 1 by omega))] at h
  by_cases hdx : (x2 - x1) / ((nx : ℚ) - 1) = 0
  · rw [if_pos hdx] at h
    cases h
  · rw [if_neg hdx] at h
    have habx : x2 - x1 ≠ 0 := by
      intro h0
      exact hdx (by rw [h0, zero_div])
    rw [if_pos (show 1 < ny by omega)] at h
    by_cases hdy : (y2 - y1) / ((ny : ℚ) - 1) = 0
    · rw [if_pos hdy] at h
      cases h
    · rw [if_neg hdy] at h
      have haby : y2 - y1 ≠ 0 := by
        intro h0
        exact hdy (by rw [h0, zero_div])
      rw [Except.ok.injEq, Prod.mk.injEq] at h
      obtain ⟨hx, hy⟩ := h
      obtain ⟨hl1, hh1, hg1⟩ := axis_spec hnx habx hx.symm
      obtain ⟨hl2, hh2, hg2⟩ := axis_spec hny haby hy.symm
      exact ⟨hl1, hh1, hg1, hl2, hh2, hg2⟩

/-- Shape of a successful `gridPoints` call. -/
theorem gridPoints_ok {uniform : ℚ → ℚ → ℕ → List ℚ} {x1 x2 y1 y2 : ℚ}
    {nx ny : ℕ} {grid : String} {xs ys : List ℚ} {gflag : Bool}
    {onx ony : Option ℕ}
    (h : gridPoints uniform x1 x2 y1 y2 nx ny grid = .ok (xs, ys, gflag, onx, ony)) :
    (grid = "regular" ∧ gflag = true ∧ onx = some nx ∧ ony = some ny ∧
       ∃ xr yr, regularRanges x1 x2 y1 y2 nx ny = .ok (xr, yr) ∧
         xs = (yr.map (fun _ => xr)).flatten ∧
         ys = (yr.map (fun yv => xr.map (fun _ => yv))).flatten) ∨
    (grid ≠ "regular" ∧ gflag = false ∧ onx = none ∧ ony = none ∧
       xs = uniform x1 x2 (nx * ny) ∧
       ys = (if 1 < ny then uniform y1 y2 (nx * ny) else [y1])) := by
  simp only [gridPoints] at h
  by_cases hg : grid = "regular"
  · rw [if_pos hg] at h
    left
    refine ⟨hg, ?_⟩
    split at h
    · cases h
    · cases h
      rename_i xr' yr' heq
      exact ⟨rfl, rfl, rfl, xr', yr', heq, rfl, rfl⟩
  · rw [if_neg hg] at h
    cases h
    right
    exact ⟨hg, rfl, rfl, rfl, rfl, rfl⟩

/-- Decomposition of a successful `from_prisms` call into its `z` array,
its grid points and its `value` array. -/
theorem from_prisms_ok {F : Field → Prism → ℚ → ℚ → ℚ → ℚ}
    {uniform : ℚ → ℚ → ℕ → List ℚ} {prisms : List Prism}
    {x1 x2 y1 y2 : ℚ} {nx ny : ℕ} {height : HeightArg} {field : Field}
    {grid : String} {d : PrismData}
    (h : from_prisms F uniform prisms x1 x2 y1 y2 nx ny height field grid = .ok d) :
    zFromHeight height (nx * ny) = .ok d.z ∧
    (d.x.zip (d.y.zip d.z)).length ≤ nx * ny ∧
    d.value = prismValues F field prisms d.x d.y d.z
      ++ List.replicate (nx * ny - (d.x.zip (d.y.zip d.z)).length) 0 ∧
    d.error = List.replicate (nx * ny) 0 ∧
    ((grid = "regular" ∧ d.grid = true ∧ d.nx = some nx ∧ d.ny = some ny ∧
       ∃ xr yr, regularRanges x1 x2 y1 y2 nx ny = .ok (xr, yr) ∧
         d.x = (yr.map (fun _ => xr)).flatten ∧
         d.y = (yr.map (fun yv => xr.map (fun _ => yv))).flatten) ∨
     (grid = "random" ∧ d.grid = false ∧ d.nx = none ∧ d.ny = none ∧
       d.x = uniform x1 x2 (nx * ny) ∧
       d.y = (if 1 < ny then uniform y1 y2 (nx * ny) else [y1]))) := by
  simp only [from_prisms] at h
  split at h
  · cases h
  · rename_i hmode
    rw [if_neg (not_not_intro (mem_prismFields field))] at h
    split at h
    · cases h
    · rename_i zs hz
      split at h
      · cases h
      · rename_i xs ys gflag onx ony hgp
        split at h
        · cases h
        · rename_i hle
          cases h
          refine ⟨hz, Nat.le_of_not_lt hle, rfl, rfl, ?_⟩
          rcases gridPoints_ok hgp with hreg | hrand
          · left
            exact hreg
          · right
            have : grid = "random" := by
              rcases not_not.mp hmode with h1 | h2
              · exact absurd h1 hrand.1
              · exact h2
            exact ⟨this, hrand.2.1, hrand.2.2.1, hrand.2.2.2.1,
                   hrand.2.2.2.2.1, hrand.2.2.2.2.2⟩

/-! ## Lemmas about the row-major product and list utilities -/

theorem length_flatten_map_const (yr xr : List ℚ) :
    ((yr.map (fun _ => xr)).flatten).length = yr.length * xr.length := by
  induction yr with
  | nil => simp
  | cons a t ih =>
    simp only [List.map_cons, List.flatten_cons, List.length_append, ih,
      List.length_cons, Nat.succ_mul]
    omega

theorem length_flatten_map_mapconst (yr xr : List ℚ) :
    ((yr.map (fun yv => xr.map (fun _ => yv))).flatten).length
      = yr.length * xr.length := by
  induction yr with
  | nil => simp
  | cons a t ih =>
    simp only [List.map_cons, List.flatten_cons, List.length_append, ih,
      List.length_map, List.length_cons, Nat.succ_mul]
    omega

theorem head?_flatten_map {f : ℚ → List ℚ} {yr : List ℚ} {a : ℚ}
    (hy : yr.head? = some a) (hf : f a ≠ []) :
    ((yr.map f).flatten).head? = (f a).head? := by
  cases yr with
  | nil => cases hy
  | cons c t =>
    have hc : c = a := by simpa using hy
    subst hc
    obtain ⟨b, s, hbs⟩ := List.exists_cons_of_ne_nil hf
    rw [List.map_cons, List.flatten_cons, hbs]
    simp

theorem getLast?_flatten_map {f : ℚ → List ℚ} {yr : List ℚ} {b : ℚ}
    (hy : yr.getLast? = some b) (hf : ∀ v, f v ≠ []) :
    ((yr.map f).flatten).getLast? = (f b).getLast? := by
  induction yr with
  | nil => cases hy
  | cons c t ih =>
    cases t with
    | nil =>
      have hc : c = b := by simpa using hy
      subst hc
      simp
    | cons dd s =>
      rw [List.getLast?_cons_cons] at hy
      rw [List.map_cons, List.flatten_cons, List.getLast?_append, ih hy]
      cases ho : (f b).getLast? with
      | none => exact absurd (List.getLast?_eq_none_iff.mp ho) (hf b)
      | some v => simp

theorem head?_map_const {xr : List ℚ} (a : ℚ) (hx : xr ≠ []) :
    (xr.map (fun _ => a)).head? = some a := by
  obtain ⟨b, s, rfl⟩ := List.exists_cons_of_ne_nil hx
  simp

theorem getLast?_map_const {xr : List ℚ} (a : ℚ) (hx : xr ≠ []) :
    (xr.map (fun _ => a)).getLast? = some a := by
  rw [List.map_const', List.getLast?_replicate]
  simp [List.length_eq_zero, hx]

/-! ## Lemmas about the accumulation loops -/

theorem foldl_add_eq_sum {α : Type} (g : α → ℚ) (l : List α) (a : ℚ) :
    l.foldl (fun acc p => acc + g p) a = a + (l.map g).sum := by
  induction l generalizing a with
  | nil => simp
  | cons p t ih => simp [ih, add_assoc]

theorem prismPointValue_perm {F : Field → Prism → ℚ → ℚ → ℚ → ℚ}
    {field : Field} {ps qs : List Prism} (hp : ps.Perm qs) (x y z : ℚ) :
    prismPointValue F field ps x y z = prismPointValue F field qs x y z := by
  unfold prismPointValue
  rw [foldl_add_eq_sum, foldl_add_eq_sum,
    (hp.map (fun p => F field p x y z)).sum_eq]

theorem spherePointValue_perm {S : Field → Sphere → ℚ → ℚ → ℚ → ℚ}
    {field : Field} {ss ts : List Sphere} (hp : ss.Perm ts) (x y z : ℚ) :
    spherePointValue S field ss x y z = spherePointValue S field ts x y z := by
  unfold spherePointValue
  rw [foldl_add_eq_sum, foldl_add_eq_sum,
    (hp.map (fun s => S field s x y z)).sum_eq]

theorem prismValues_perm {F : Field → Prism → ℚ → ℚ → ℚ → ℚ} {field : Field}
    {ps qs : List Prism} (hp : ps.Perm qs) :
    ∀ xs ys zs, prismValues F field ps xs ys zs = prismValues F field qs xs ys zs := by
  intro xs ys zs
  unfold prismValues
  exact List.map_congr_left (fun p _ => prismPointValue_perm hp p.1 p.2.1 p.2.2)

theorem sphereValues_perm {S : Field → Sphere → ℚ → ℚ → ℚ → ℚ} {field : Field}
    {ss ts : List Sphere} (hp : ss.Perm ts) :
    ∀ xs ys zs, sphereValues S field ss xs ys zs = sphereValues S field ts xs ys zs := by
  intro xs ys zs
  unfold sphereValues
  rw [List.map_congr_left (fun p _ => spherePointValue_perm hp p.1 p.2.1 p.2.2)]

/-! ## Lemmas about the grid dictionary -/

theorem dset_lookup_same (g : Grid) (k : String) (v : List ℚ) :
    (dset g k v).lookup k = some v := by
  induction g with
  | nil =>
    simp only [dset, List.lookup]
    rw [show (k == k) = true from beq_self_eq_true k]
  | cons e t ih =>
    by_cases hk : e.1 = k
    · simp only [dset]
      rw [if_pos hk]
      simp only [List.lookup]
      rw [show (k == k) = true from beq_self_eq_true k]
    · simp only [dset]
      rw [if_neg hk]
      simp only [List.lookup]
      rw [show (k == e.1) = false from beq_eq_false_iff_ne.mpr (fun hkk => hk hkk.symm)]
      exact ih

theorem dset_lookup_ne (g : Grid) (k k2 : String) (v : List ℚ) (hk : k2 ≠ k) :
    (dset g k v).lookup k2 = g.lookup k2 := by
  induction g with
  | nil =>
    simp only [dset, List.lookup]
    rw [show (k2 == k) = false from beq_eq_false_iff_ne.mpr hk]
  | cons e t ih =>
    by_cases he : e.1 = k
    · simp only [dset]
      rw [if_pos he]
      simp only [List.lookup]
      rw [show (k2 == k) = false from beq_eq_false_iff_ne.mpr hk,
          show (k2 == e.1) = false from beq_eq_false_iff_ne.mpr (by rw [he]; exact hk)]
    · simp only [dset]
      rw [if_neg he]
      simp only [List.lookup]
      by_cases h2 : k2 = e.1
      · rw [show (k2 == e.1) = true from beq_iff_eq.mpr h2]
      · rw [show (k2 == e.1) = false from beq_eq_false_iff_ne.mpr h2]
        exact ih

/-- Decomposition of a successful `from_spheres` call: the field name is
supported, the three coordinate arrays were present, and the result is the
input grid with only its `value` entry replaced. -/
theorem from_spheres_ok {S : Field → Sphere → ℚ → ℚ → ℚ → ℚ}
    {spheres : List Sphere} {grid : Grid} {field : Field} {g2 : Grid}
    (h : from_spheres S spheres grid field = .ok g2) :
    field ∈ sphereFields ∧
    ∃ xs ys zs, grid.lookup "x" = some xs ∧ grid.lookup "y" = some ys ∧
      grid.lookup "z" = some zs ∧
      g2 = dset grid "value" (sphereValues S field spheres xs ys zs) := by
  simp only [from_spheres] at h
  split at h
  · cases h
  · rename_i hf
    split at h
    · cases h
    · rename_i xs hx
      split at h
      · cases h
      · rename_i ys hy
        split at h
        · cases h
        · rename_i zs hz
          cases h
          exact ⟨not_not.mp hf, xs, ys, zs, hx, hy, hz, rfl⟩

/-- A concrete prism formula stub used for witnesses (the claims hold for
every formula library, so any concrete one will do). -/
def F0 : Field → Prism → ℚ → ℚ → ℚ → ℚ := fun _ _ _ _ _ => 0

/-- A concrete sphere formula stub used for witnesses. -/
def S0 : Field → Sphere → ℚ → ℚ → ℚ → ℚ := fun _ _ _ _ _ => 0

/-- A concrete uniform sampler used for witnesses: every sample equals the
lower bound, so all samples lie in the requested interval. -/
def u0 : ℚ → ℚ → ℕ → List ℚ := fun a _ n => List.replicate n a

/-! ## Claims -/

/-- With no prisms, every computed entry of the `value` array is the zero
initialisation. -/
theorem prismValues_nil (F : Field → Prism → ℚ → ℚ → ℚ → ℚ) (field : Field)
    (xs ys zs : List ℚ) :
    prismValues F field [] xs ys zs =
      List.replicate ((xs.zip (ys.zip zs)).length) 0 := by
  unfold prismValues prismPointValue
  simp only [List.foldl_nil]
  exact List.map_const' _ 0

/-- With no spheres, the data array stays `numpy.zeros_like(grid[x])`. -/
theorem sphereValues_nil (S : Field → Sphere → ℚ → ℚ → ℚ → ℚ) (field : Field)
    (xs ys zs : List ℚ) :
    sphereValues S field [] xs ys zs = List.replicate xs.length 0 := by
  unfold sphereValues spherePointValue
  simp only [List.foldl_nil]
  rw [List.map_const' _ 0, List.append_replicate_replicate]
  congr 1
  have hle : (xs.zip (ys.zip zs)).length ≤ xs.length := by
    rw [List.length_zip]
    exact Nat.min_le_left _ _
  omega

/-- C5: with an empty source-body list, both accumulators yield a field
value of exactly zero at every observation point: the prism path returns
a `value` array of `nx * ny` zeros and the sphere path stores one zero
per entry of the x array of the grid. -/
theorem C5_empty_model_zero (F : Field → Prism → ℚ → ℚ → ℚ → ℚ)
    (S : Field → Sphere → ℚ → ℚ → ℚ → ℚ) (uniform : ℚ → ℚ → ℕ → List ℚ)
    (x1 x2 y1 y2 : ℚ) (nx ny : ℕ) (height : HeightArg)
    (field field2 : Field) (grid : String) (d : PrismData)
    (g g2 : Grid) (gxs : List ℚ)
    (hp : from_prisms F uniform [] x1 x2 y1 y2 nx ny height field grid = .ok d)
    (hgx : g.lookup "x" = some gxs)
    (hs : from_spheres S [] g field2 = .ok g2) :
    d.value = List.replicate (nx * ny) 0 ∧
    g2.lookup "value" = some (List.replicate gxs.length 0) := by
  constructor
  · obtain ⟨_, hle, hval, _, _⟩ := from_prisms_ok hp
    rw [hval, prismValues_nil, List.append_replicate_replicate]
    congr 1
    omega
  · obtain ⟨_, xs', ys', zs', hx', _, _, hg2⟩ := from_spheres_ok hs
    have exs := Option.some.inj (hx'.symm.trans hgx)
    subst exs hg2
    rw [dset_lookup_same, sphereValues_nil]

/-- C5 witness: concrete empty-model calls on a 2x2 regular grid and on a
three-point sphere grid both produce all-zero values. -/
theorem C5_empty_model_zero_witness :
    (⟨[0, 10, 0, 10], [0, 0, 10, 10], [0, 0, 0, 0], [0, 0, 0, 0], [0, 0, 0, 0],
       true, some 2, some 2⟩ : PrismData).value = List.replicate (2 * 2) 0 ∧
    (dset ([("x", [1, 2, 3]), ("y", [4, 5, 6]), ("z", [7, 8, 9])] : Grid) "value"
        (sphereValues S0 .gz [] [1, 2, 3] [4, 5, 6] [7, 8, 9])).lookup "value" =
      some (List.replicate ([(1 : ℚ), 2, 3].length) 0) :=
  C5_empty_model_zero F0 S0 u0 0 10 0 10 2 2 (.scalar 0) .gz .gz "regular"
    ⟨[0, 10, 0, 10], [0, 0, 10, 10], [0, 0, 0, 0], [0, 0, 0, 0], [0, 0, 0, 0],
     true, some 2, some 2⟩
    [("x", [1, 2, 3]), ("y", [4, 5, 6]), ("z", [7, 8, 9])]
    (dset ([("x", [1, 2, 3]), ("y", [4, 5, 6]), ("z", [7, 8, 9])] : Grid) "value"
      (sphereValues S0 .gz [] [1, 2, 3] [4, 5, 6] [7, 8, 9]))
    [1, 2, 3] (by decide) (by decide) rfl

/-- C6: accumulated field values are invariant under permutation of the
source-body list: the per-point accumulators of both paths and the two
entry operations as a whole give identical results for permuted body
lists (exact rational arithmetic). -/
theorem C6_permutation_invariance (F : Field → Prism → ℚ → ℚ → ℚ → ℚ)
    (S : Field → Sphere → ℚ → ℚ → ℚ → ℚ) (uniform : ℚ → ℚ → ℕ → List ℚ)
    (x1 x2 y1 y2 px py pz : ℚ) (nx ny : ℕ) (height : HeightArg)
    (field : Field) (grid : String) (g : Grid)
    (ps qs : List Prism) (ss ts : List Sphere)
    (hp : ps.Perm qs) (hs : ss.Perm ts) :
    prismPointValue F field ps px py pz = prismPointValue F field qs px py pz ∧
    spherePointValue S field ss px py pz = spherePointValue S field ts px py pz ∧
    from_prisms F uniform ps x1 x2 y1 y2 nx ny height field grid =
      from_prisms F uniform qs x1 x2 y1 y2 nx ny height field grid ∧
    from_spheres S ss g field = from_spheres S ts g field := by
  refine ⟨prismPointValue_perm hp px py pz, spherePointValue_perm hs px py pz, ?_, ?_⟩
  · unfold from_prisms
    simp only [prismValues_perm hp]
  · unfold from_spheres
    simp only [sphereValues_perm hs]

/-- C6 witness: two two-body models listed in both orders produce equal
results everywhere. -/
theorem C6_permutation_invariance_witness :
    prismPointValue F0 .gz [⟨1, 0, 1, 0, 1, 0, 1⟩, ⟨2, 0, 2, 0, 2, 0, 2⟩] 3 4 5 =
      prismPointValue F0 .gz [⟨2, 0, 2, 0, 2, 0, 2⟩, ⟨1, 0, 1, 0, 1, 0, 1⟩] 3 4 5 ∧
    spherePointValue S0 .gz [⟨1, 1, 0, 0, 0⟩, ⟨2, 2, 0, 0, 0⟩] 3 4 5 =
      spherePointValue S0 .gz [⟨2, 2, 0, 0, 0⟩, ⟨1, 1, 0, 0, 0⟩] 3 4 5 ∧
    from_prisms F0 u0 [⟨1, 0, 1, 0, 1, 0, 1⟩, ⟨2, 0, 2, 0, 2, 0, 2⟩]
        0 10 0 10 2 2 (.scalar 0) .gz "regular" =
      from_prisms F0 u0 [⟨2, 0, 2, 0, 2, 0, 2⟩, ⟨1, 0, 1, 0, 1, 0, 1⟩]
        0 10 0 10 2 2 (.scalar 0) .gz "regular" ∧
    from_spheres S0 [⟨1, 1, 0, 0, 0⟩, ⟨2, 2, 0, 0, 0⟩]
        [("x", [1]), ("y", [2]), ("z", [3])] .gz =
      from_spheres S0 [⟨2, 2, 0, 0, 0⟩, ⟨1, 1, 0, 0, 0⟩]
        [("x", [1]), ("y", [2]), ("z", [3])] .gz :=
  C6_permutation_invariance F0 S0 u0 0 10 0 10 3 4 5 2 2 (.scalar 0) .gz "regular"
    [("x", [1]), ("y", [2]), ("z", [3])]
    [⟨1, 0, 1, 0, 1, 0, 1⟩, ⟨2, 0, 2, 0, 2, 0, 2⟩]
    [⟨2, 0, 2, 0, 2, 0, 2⟩, ⟨1, 0, 1, 0, 1, 0, 1⟩]
    [⟨1, 1, 0, 0, 0⟩, ⟨2, 2, 0, 0, 0⟩] [⟨2, 2, 0, 0, 0⟩, ⟨1, 1, 0, 0, 0⟩]
    (List.Perm.swap _ _ _) (List.Perm.swap _ _ _)

/-- C7: the `z` coordinate of every generated observation point is the
negative of the supplied height: a scalar height gives `z = -height` at
all `nx * ny` points, and a per-point height sequence of length
`nx * ny` gives `z[i] = -height[i]`. -/
theorem C7_z_is_negative_height (F : Field → Prism → ℚ → ℚ → ℚ → ℚ)
    (uniform : ℚ → ℚ → ℕ → List ℚ) (prisms : List Prism)
    (x1 x2 y1 y2 : ℚ) (nx ny : ℕ) (field : Field) (grid : String)
    (hq : ℚ) (hsq : List ℚ) (d e : PrismData)
    (h1 : from_prisms F uniform prisms x1 x2 y1 y2 nx ny (.scalar hq) field grid = .ok d)
    (h2 : from_prisms F uniform prisms x1 x2 y1 y2 nx ny (.perPoint hsq) field grid = .ok e)
    (hlen : hsq.length = nx * ny) :
    d.z = List.replicate (nx * ny) (-hq) ∧ e.z = hsq.map (fun t => -t) := by
  have hz1 := (from_prisms_ok h1).1
  have hz2 := (from_prisms_ok h2).1
  constructor
  · have hr : zFromHeight (.scalar hq) (nx * ny) =
        .ok (List.replicate (nx * ny) (-hq)) := rfl
    rw [hr] at hz1
    exact (Except.ok.inj hz1).symm
  · have hr : zFromHeight (.perPoint hsq) (nx * ny) =
        .ok (hsq.map (fun t => -t)) := by
      simp only [zFromHeight]
      rw [if_pos hlen]
    rw [hr] at hz2
    exact (Except.ok.inj hz2).symm

/-- C7 witness: scalar height 5 gives `z = -5` at the four points of a
2x2 regular grid, and the per-point heights `[1, 2, 3, 4]` give
`z = [-1, -2, -3, -4]`. -/
theorem C7_z_is_negative_height_witness :
    (⟨[0, 10, 0, 10], [0, 0, 10, 10], [-5, -5, -5, -5], [0, 0, 0, 0], [0, 0, 0, 0],
        true, some 2, some 2⟩ : PrismData).z = List.replicate (2 * 2) (-5) ∧
    (⟨[0, 10, 0, 10], [0, 0, 10, 10], [-1, -2, -3, -4], [0, 0, 0, 0], [0, 0, 0, 0],
        true, some 2, some 2⟩ : PrismData).z = [(1 : ℚ), 2, 3, 4].map (fun t => -t) :=
  C7_z_is_negative_height F0 u0 [] 0 10 0 10 2 2 .gz "regular" 5 [1, 2, 3, 4]
    _ _ (by decide) (by decide) (by decide)

/-- C1: a successful regular-grid `from_prisms` call with `nx, ny ≥ 2`
returns exactly `nx * ny` observation points; the first point is
`(x1, y1)` and the last is `(x2, y2)` — both endpoints are included
because the endpoint is appended whenever `arange` stops short of the
requested count, which with exact steps is always — and the points are
ordered row-major: the whole x-range for the first y value, then the
whole x-range for the second y value, and so on. -/
theorem C1_regular_grid (F : Field → Prism → ℚ → ℚ → ℚ → ℚ)
    (uniform : ℚ → ℚ → ℕ → List ℚ) (prisms : List Prism)
    (x1 x2 y1 y2 : ℚ) (nx ny : ℕ) (height : HeightArg) (field : Field)
    (d : PrismData) (hnx : 2 ≤ nx) (hny : 2 ≤ ny)
    (h : from_prisms F uniform prisms x1 x2 y1 y2 nx ny height field "regular" = .ok d) :
    d.x.length = nx * ny ∧ d.y.length = nx * ny ∧ d.value.length = nx * ny ∧
    d.x.head? = some x1 ∧ d.y.head? = some y1 ∧
    d.x.getLast? = some x2 ∧ d.y.getLast? = some y2 ∧
    ∃ xr yr : List ℚ, xr.length = nx ∧ yr.length = ny ∧
      xr.head? = some x1 ∧ xr.getLast? = some x2 ∧
      yr.head? = some y1 ∧ yr.getLast? = some y2 ∧
      d.x = (yr.map (fun _ => xr)).flatten ∧
      d.y = (yr.map (fun yv => List.replicate nx yv)).flatten := by
  obtain ⟨hz, hle, hval, herr, hbranch⟩ := from_prisms_ok h
  rcases hbranch with ⟨_, _, _, _, xr, yr, hrr, hdx, hdy⟩ | ⟨habs, _⟩
  swap
  · exact absurd habs (by decide)
  obtain ⟨hlx, hhx, hgx, hly, hhy, hgy⟩ := regularRanges_ok hnx hny hrr
  have hxr_ne : xr ≠ [] := by
    intro h0
    rw [h0] at hhx
    cases hhx
  have hyr_ne : yr ≠ [] := by
    intro h0
    rw [h0] at hhy
    cases hhy
  have hmapne : ∀ yv : ℚ, xr.map (fun _ => yv) ≠ [] := by
    intro yv h0
    exact hxr_ne (List.map_eq_nil_iff.mp h0)
  have hdxlen : d.x.length = nx * ny := by
    rw [hdx, length_flatten_map_const, hly, hlx, Nat.mul_comm]
  have hdylen : d.y.length = nx * ny := by
    rw [hdy, length_flatten_map_mapconst, hly, hlx, Nat.mul_comm]
  have hdvlen : d.value.length = nx * ny := by
    rw [hval, List.length_append, List.length_replicate]
    unfold prismValues
    rw [List.length_map]
    omega
  have hdhx : d.x.head? = some x1 := by
    rw [hdx, head?_flatten_map hhy hxr_ne]
    exact hhx
  have hdhy : d.y.head? = some y1 := by
    rw [hdy, head?_flatten_map hhy (hmapne y1)]
    exact head?_map_const y1 hxr_ne
  have hdgx : d.x.getLast? = some x2 := by
    rw [hdx, getLast?_flatten_map hgy (fun _ => hxr_ne)]
    exact hgx
  have hdgy : d.y.getLast? = some y2 := by
    rw [hdy, getLast?_flatten_map hgy hmapne]
    exact getLast?_map_const y2 hxr_ne
  refine ⟨hdxlen, hdylen, hdvlen, hdhx, hdhy, hdgx, hdgy,
          xr, yr, hlx, hly, hhx, hgx, hhy, hgy, hdx, ?_⟩
  rw [hdy]
  apply congrArg List.flatten
  apply List.map_congr_left
  intro yv _
  rw [List.map_const', hlx]

/-- The concrete output of
`from_prisms F0 u0 [] 0 10 0 10 2 2 (scalar 5) gz regular`. -/
def d1 : PrismData :=
  ⟨[0, 10, 0, 10], [0, 0, 10, 10], [-5, -5, -5, -5], [0, 0, 0, 0], [0, 0, 0, 0],
   true, some 2, some 2⟩

/-- C1 witness: the 2x2 regular grid over `[0,10] x [0,10]` has 4 points,
runs from `(0,0)` to `(10,10)` and is row-major. -/
theorem C1_regular_grid_witness :
    d1.x.length = 2 * 2 ∧ d1.y.length = 2 * 2 ∧ d1.value.length = 2 * 2 ∧
    d1.x.head? = some 0 ∧ d1.y.head? = some 0 ∧
    d1.x.getLast? = some 10 ∧ d1.y.getLast? = some 10 ∧
    ∃ xr yr : List ℚ, xr.length = 2 ∧ yr.length = 2 ∧
      xr.head? = some 0 ∧ xr.getLast? = some 10 ∧
      yr.head? = some 0 ∧ yr.getLast? = some 10 ∧
      d1.x = (yr.map (fun _ => xr)).flatten ∧
      d1.y = (yr.map (fun yv => List.replicate 2 yv)).flatten :=
  C1_regular_grid F0 u0 [] 0 10 0 10 2 2 (.scalar 5) .gz d1
    (by decide) (by decide) (by decide)

/-- C2: the random mode with `ny = 1` (the 1-D profile configuration that the
docstring of the module itself advertises) does not produce `nx * ny` observation
points: the code stores the single-element list `[y1]` as the whole `y`
array instead of `nx * ny` copies of `y1`, so the returned data has a
1-element `y` array against a 2-element `x` array, and only the first
`value` entry is ever visited by the accumulation loop. -/
theorem C2_random_profile_bug :
    from_prisms F0 u0 [] 0 10 7 7 2 1 (.scalar 0) .gz "random" =
      .ok ⟨[0, 0], [7], [0, 0], [0, 0], [0, 0], false, none, none⟩ ∧
    ([(7 : ℚ)] : List ℚ).length ≠ 2 * 1 :=
  ⟨by decide, by decide⟩

/-- C3: requesting `gxy` from the sphere accumulator fails with the
InvalidArgument error of the field-name assert before anything else
happens; the sphere formula dictionary is keyed by exactly `gz`, `gxx`,
`gyy`, `gzz` — `gxy` is not among them — while the prism dictionary is
keyed by all seven components, so every field name passes the prism
assert. -/
theorem C3_sphere_field_support (S : Field → Sphere → ℚ → ℚ → ℚ → ℚ)
    (spheres : List Sphere) (g : Grid) (f : Field) :
    from_spheres S spheres g .gxy =
      .error (.invalidArgument "Invalid gravity field") ∧
    sphereFields = [.gz, .gxx, .gyy, .gzz] ∧
    f ∈ prismFields ∧
    (Field.gxy ∈ sphereFields ↔ False) := by
  refine ⟨?_, rfl, mem_prismFields f, by simp [sphereFields]⟩
  simp only [from_spheres]
  rw [if_pos (by simp [sphereFields])]

/-- C4: `from_spheres` called with a grid that lacks any of the keys `x`,
`y`, `z` fails with the missing-key InvalidArgument assert (the keys are
checked in the order x, y, z); a failing call produces no `.ok` grid, so
the dictionary of the caller is left completely unchanged — all validation
happens before any computation or mutation. -/
theorem C4_missing_grid_key (S : Field → Sphere → ℚ → ℚ → ℚ → ℚ)
    (spheres : List Sphere) (g : Grid) (field : Field)
    (hf : field ∈ sphereFields)
    (hm : g.lookup "x" = none ∨ g.lookup "y" = none ∨ g.lookup "z" = none) :
    from_spheres S spheres g field =
      .error (.invalidArgument
        (if g.lookup "x" = none then "Missing x key"
         else if g.lookup "y" = none then "Missing y key"
         else "Missing z key")) ∧
    (from_spheres S spheres g field).toOption = none := by
  have hmain : from_spheres S spheres g field =
      .error (.invalidArgument
        (if g.lookup "x" = none then "Missing x key"
         else if g.lookup "y" = none then "Missing y key"
         else "Missing z key")) := by
    simp only [from_spheres]
    rw [if_neg (not_not_intro hf)]
    rcases hx : g.lookup "x" with _ | xs
    · simp [hx]
    · rcases hy : g.lookup "y" with _ | ys
      · simp [hx, hy]
      · rcases hz : g.lookup "z" with _ | zs
        · simp [hx, hy, hz]
        · exfalso
          rcases hm with h0 | h0 | h0
          · rw [hx] at h0
            cases h0
          · rw [hy] at h0
            cases h0
          · rw [hz] at h0
            cases h0
  exact ⟨hmain, by rw [hmain]; rfl⟩

/-- C4 witness: a grid holding only `x` and `y` makes `from_spheres` fail
with the missing-z-key error and produce no updated grid. -/
theorem C4_missing_grid_key_witness :
    from_spheres S0 [] [("x", [0]), ("y", [0])] .gz =
      .error (.invalidArgument
        (if ([(("x" : String), ([0] : List ℚ)), ("y", [0])] : Grid).lookup "x" = none
         then "Missing x key"
         else if ([(("x" : String), ([0] : List ℚ)), ("y", [0])] : Grid).lookup "y" = none
         then "Missing y key"
         else "Missing z key")) ∧
    (from_spheres S0 [] [("x", [0]), ("y", [0])] .gz).toOption = none :=
  C4_missing_grid_key S0 [] [("x", [0]), ("y", [0])] .gz (by decide)
    (Or.inr (Or.inr (by decide)))

/-- C8: calling `from_prisms` with a grid mode string other than
`regular` or `random` fails with the InvalidArgument error of the mode
assert; the failure does not depend on the formula library, the sampler,
the model, the region, the counts, the height or the field, so it happens
before any grid generation or field computation. -/
theorem C8_invalid_grid_mode (F : Field → Prism → ℚ → ℚ → ℚ → ℚ)
    (uniform : ℚ → ℚ → ℕ → List ℚ) (prisms : List Prism)
    (x1 x2 y1 y2 : ℚ) (nx ny : ℕ) (height : HeightArg) (field : Field)
    (grid : String) (h1 : grid ≠ "regular") (h2 : grid ≠ "random") :
    from_prisms F uniform prisms x1 x2 y1 y2 nx ny height field grid =
      .error (.invalidArgument "Invalid grid type") := by
  simp only [from_prisms]
  rw [if_pos (by simp [h1, h2])]

/-- C8 witness: the grid mode string `foo` is rejected. -/
theorem C8_invalid_grid_mode_witness :
    from_prisms F0 u0 [] 0 10 0 10 2 2 (.scalar 0) .gz "foo" =
      .error (.invalidArgument "Invalid grid type") :=
  C8_invalid_grid_mode F0 u0 [] 0 10 0 10 2 2 (.scalar 0) .gz "foo"
    (by decide) (by decide)

/-- C9: a successful `from_spheres` call changes only the `value` entry
of the grid of the caller, setting it to the computed per-point sums; the
binding of every other key — `x`, `y`, `z` and any additional key — is
unchanged. -/
theorem C9_sphere_value_frame (S : Field → Sphere → ℚ → ℚ → ℚ → ℚ)
    (spheres : List Sphere) (g : Grid) (field : Field) (g2 : Grid)
    (xs ys zs : List ℚ) (k : String)
    (hx : g.lookup "x" = some xs) (hy : g.lookup "y" = some ys)
    (hz : g.lookup "z" = some zs)
    (h : from_spheres S spheres g field = .ok g2) (hk : k ≠ "value") :
    g2.lookup "value" = some (sphereValues S field spheres xs ys zs) ∧
    g2.lookup k = g.lookup k := by
  obtain ⟨hf, xs', ys', zs', hx', hy', hz', hg2⟩ := from_spheres_ok h
  have exs := Option.some.inj (hx'.symm.trans hx)
  have eys := Option.some.inj (hy'.symm.trans hy)
  have ezs := Option.some.inj (hz'.symm.trans hz)
  subst exs eys ezs hg2
  exact ⟨dset_lookup_same g "value" _, dset_lookup_ne g "value" k _ hk⟩

/-- C9 witness: on a grid with an extra key, a successful call sets
`value` and leaves the extra key (and the coordinates) alone. -/
theorem C9_sphere_value_frame_witness :
    (dset ([("x", [1, 2]), ("y", [3, 4]), ("z", [5, 6]), ("extra", [9])] : Grid)
        "value" (sphereValues S0 .gz [] [1, 2] [3, 4] [5, 6])).lookup "value" =
      some (sphereValues S0 .gz [] [1, 2] [3, 4] [5, 6]) ∧
    (dset ([("x", [1, 2]), ("y", [3, 4]), ("z", [5, 6]), ("extra", [9])] : Grid)
        "value" (sphereValues S0 .gz [] [1, 2] [3, 4] [5, 6])).lookup "extra" =
      ([("x", [1, 2]), ("y", [3, 4]), ("z", [5, 6]), ("extra", [9])] : Grid).lookup "extra" :=
  C9_sphere_value_frame S0 [] [("x", [1, 2]), ("y", [3, 4]), ("z", [5, 6]), ("extra", [9])]
    .gz (dset ([("x", [1, 2]), ("y", [3, 4]), ("z", [5, 6]), ("extra", [9])] : Grid)
        "value" (sphereValues S0 .gz [] [1, 2] [3, 4] [5, 6]))
    [1, 2] [3, 4] [5, 6] "extra" (by decide) (by decide) (by decide) (by decide) (by decide)

/-- C10: with the regular grid mode and `nx = 1`, as soon as the `z` array has
been built the step computation `dx = (x2 - x1)/(nx - 1)` divides by
zero, so `from_prisms` fails with a ZeroDivisionError — which is not an
InvalidArgument of the assert taxonomy — whatever the region, model,
field or `ny`; `nx ≥ 2` is an undocumented precondition of the regular
mode. -/
theorem C10_nx1_division_by_zero (F : Field → Prism → ℚ → ℚ → ℚ → ℚ)
    (uniform : ℚ → ℚ → ℕ → List ℚ) (prisms : List Prism)
    (x1 x2 y1 y2 : ℚ) (ny : ℕ) (height : HeightArg) (field : Field)
    (zs : List ℚ) (msg : String)
    (hz : zFromHeight height (1 * ny) = .ok zs) :
    from_prisms F uniform prisms x1 x2 y1 y2 1 ny height field "regular" =
      .error .zeroDivisionError ∧
    Err.zeroDivisionError ≠ Err.invalidArgument msg := by
  constructor
  · simp only [from_prisms]
    rw [if_neg (by simp)]
    rw [if_neg (not_not_intro (mem_prismFields field))]
    simp only [hz, gridPoints, regularRanges]
    rw [if_pos trivial, if_pos (show ((1 : ℕ) : ℚ) - 1 = 0 by norm_num)]
  · intro h0
    cases h0

/-- C10 witness: the concrete call with `nx = 1`, `ny = 2` and scalar
height dies with the ZeroDivisionError. -/
theorem C10_nx1_division_by_zero_witness :
    from_prisms F0 u0 [] 0 10 0 10 1 2 (.scalar 0) .gz "regular" =
      .error .zeroDivisionError ∧
    Err.zeroDivisionError ≠ Err.invalidArgument "Invalid grid type" :=
  C10_nx1_division_by_zero F0 u0 [] 0 10 0 10 2 (.scalar 0) .gz
    [0, 0] "Invalid grid type" (by decide)

end Fatiando
